import Mathlib

/-!
Verification of `src/crypto/txscript/src/zk_precompiles/risc0/windows_stub/sys_alloc.c`.

The C file defines a single function

  __declspec(dllexport) void* sys_alloc_aligned(size_t size, size_t alignment) {
      return _aligned_malloc(size, alignment);
  }

where `_aligned_malloc` is an external symbol provided by the MSVC runtime
(declared `void* _aligned_malloc(size_t size, size_t alignment);` in the file).

Shallow embedding: the host primitive `_aligned_malloc` is external to the
repository, so it is modelled as an abstract function parameter.  Addresses are
natural numbers; a null pointer is `Option.none`.  Besides the direct embedding
we give a traced variant (recording each call made to the host primitive, so
that argument forwarding and call counting become statable) and a stateful
variant (threading the host allocator's state together with the rest of the
process state, so that frame and aliasing properties become statable).  Each
variant's body is the single call of the C body, nothing more.
-/

namespace SysAlloc

/-- The type of the host aligned-allocation primitive as seen by the C shim:
`_aligned_malloc` takes `(size, alignment)` and returns a pointer
(`some address`) or NULL (`none`). -/
abbrev HostPrim : Type := Nat → Nat → Option Nat

/-- Embedding of `sys_alloc_aligned` from `windows_stub/sys_alloc.c`:
the body is exactly `return _aligned_malloc(size, alignment);`. -/
def sys_alloc_aligned (host : HostPrim) (size alignment : Nat) : Option Nat :=
  host size alignment

/-- An observable event of the shim: a call to the host primitive
`_aligned_malloc` with the given arguments and its returned value. -/
inductive Event : Type
  | hostCall (size alignment : Nat) (result : Option Nat)
  deriving DecidableEq

/-- Traced embedding of `sys_alloc_aligned`: same computation, additionally
recording the list of host-primitive calls the body performs.  The C body is a
single call expression, so the trace is that one call. -/
def sys_alloc_aligned_traced (host : HostPrim) (size alignment : Nat) :
    Option Nat × List Event :=
  let r := host size alignment
  (r, [Event.hostCall size alignment r])

/-- Stateful embedding of `sys_alloc_aligned` with explicit state passing.
The process state is split into the host allocator's own state `σ` (which the
external call `_aligned_malloc` may update) and all remaining process state
`τ`.  The C body performs the single host call and returns; it contains no
other statement, so the embedding threads `σ` through the host call and leaves
`τ` untouched. -/
def sys_alloc_aligned_st {σ τ : Type} (host : Nat → Nat → σ → Option Nat × σ)
    (size alignment : Nat) (st : σ × τ) : Option Nat × (σ × τ) :=
  let p := host size alignment st.1
  (p.1, (p.2, st.2))

/-- Spec-side definition of the shim, written from the spec's words:
"Delegates directly and synchronously to the host operating system's native
aligned-allocation primitive with the given `(size, alignment)` pair" and
"Returns exactly what the host primitive returns". -/
def sys_alloc_aligned_spec (host : HostPrim) (size alignment : Nat) : Option Nat :=
  host size alignment

/-- A live heap region: start address and extent in bytes. -/
structure Region where
  addr : Nat
  size : Nat
  deriving DecidableEq

/-- Two regions are disjoint (non-aliasing): one ends at or before the other
begins. -/
def Region.disjoint (r s : Region) : Prop :=
  r.addr + r.size ≤ s.addr ∨ s.addr + s.size ≤ r.addr

instance (r s : Region) : Decidable (r.disjoint s) := by
  unfold Region.disjoint; infer_instance

/-- A host allocator with explicit state: the state is the list of
currently-live regions (those handed out by the whole host allocator, this
boundary's calls included, and not yet freed). -/
abbrev HostAllocator : Type := Nat → Nat → List Region → Option Nat × List Region

/-- Contract of the host allocator, modelling the documented behavior of
MSVC's `_aligned_malloc` (external to the repository): a successful call
returns the start of a fresh block of the requested size, disjoint from every
currently-live region, and records that block as live; a failed call returns
NULL and leaves the live set unchanged. -/
def HostSound (host : HostAllocator) : Prop :=
  ∀ size alignment L,
    (∀ a L2, host size alignment L = (some a, L2) →
      (∀ r ∈ L, (Region.mk a size).disjoint r) ∧ L2 = Region.mk a size :: L) ∧
    (∀ L2, host size alignment L = (none, L2) → L2 = L)

/-- Contract of the host primitive, modelling the documented behavior of
MSVC's `_aligned_malloc` (external to the repository): when `alignment` is a
power of two, a non-NULL result is a multiple of `alignment`. -/
def HostAligned (host : HostPrim) : Prop :=
  ∀ size alignment a, (∃ k, alignment = 2 ^ k) →
    host size alignment = some a → a % alignment = 0

/-- Concrete host primitive used as a model instance: hands out the address
`3 * alignment` for every request. -/
def tripleHost : HostPrim := fun _ alignment => some (3 * alignment)

theorem tripleHost_aligned : HostAligned tripleHost := by
  intro size alignment a _ h
  simp only [tripleHost, Option.some.injEq] at h
  subst h
  exact Nat.mul_mod_left 3 alignment

/-- Concrete host primitive that always fails (returns NULL). -/
def failHost : HostPrim := fun _ _ => none

/-- The high-water mark of a live-region list: the least address at or above
the end of every live region. -/
def hiMark (L : List Region) : Nat :=
  L.foldr (fun r m => max (r.addr + r.size) m) 0

theorem hiMark_bound (L : List Region) : ∀ r ∈ L, r.addr + r.size ≤ hiMark L := by
  induction L with
  | nil => intro r h; cases h
  | cons x xs ih =>
    intro r h
    cases h with
    | head => exact Nat.le_max_left _ _
    | tail _ hmem => exact Nat.le_trans (ih r hmem) (Nat.le_max_right _ _)

/-- Concrete stateful host allocator used as a model instance: a bump
allocator placing every block at the current high-water mark. -/
def bumpHost : HostAllocator :=
  fun size _ L => (some (hiMark L), Region.mk (hiMark L) size :: L)

theorem bumpHost_sound : HostSound bumpHost := by
  intro size alignment L
  constructor
  · intro a L2 h
    simp only [bumpHost, Prod.mk.injEq, Option.some.injEq] at h
    obtain ⟨ha, hL⟩ := h
    subst ha
    refine ⟨fun r hr => Or.inr (hiMark_bound L r hr), hL.symm⟩
  · intro L2 h
    simp only [bumpHost, Prod.mk.injEq] at h
    exact Option.noConfusion h.1

/-- Concrete host primitive returning an address computed from both
arguments. -/
def sumHost : HostPrim := fun size alignment => some (size + alignment)

/-- Concrete host primitive succeeding only for size 4. -/
def pickyHost : HostPrim := fun size _ => if size = 4 then some 12 else none

/-- C1: for every `(size, alignment)` with `alignment` a power of two, if
`sys_alloc_aligned` returns a non-null pointer, the returned address is
divisible by `alignment` — inherited from the host primitive's alignment
contract, since the shim returns the host's pointer unchanged. -/
theorem c1_result_is_aligned (host : HostPrim) (size alignment a : Nat)
    (hcontract : HostAligned host) (hpow : ∃ k, alignment = 2 ^ k)
    (hret : sys_alloc_aligned host size alignment = some a) :
    a % alignment = 0 :=
  hcontract size alignment a hpow hret

theorem c1_result_is_aligned_witness :
    (12 : Nat) % 4 = 0 :=
  c1_result_is_aligned tripleHost 10 4 12 tripleHost_aligned ⟨2, rfl⟩ rfl

/-- C2: `sys_alloc_aligned` coincides with the spec-side pass-through
definition, and its traced run consists of exactly one host call with the
arguments forwarded unchanged, whose result is returned with no translation. -/
theorem c2_pass_through_refinement (host : HostPrim) (size alignment : Nat) :
    sys_alloc_aligned host size alignment = sys_alloc_aligned_spec host size alignment ∧
    sys_alloc_aligned host size alignment = host size alignment ∧
    sys_alloc_aligned_traced host size alignment =
      (host size alignment, [Event.hostCall size alignment (host size alignment)]) :=
  ⟨rfl, rfl, rfl⟩

/-- C3: whenever the host primitive returns null, `sys_alloc_aligned` returns
null verbatim, and the traced run shows the single host call and nothing else:
no recovery, retry, or translation of the failure. -/
theorem c3_null_propagated_verbatim (host : HostPrim) (size alignment : Nat)
    (hfail : host size alignment = none) :
    sys_alloc_aligned host size alignment = none ∧
    (sys_alloc_aligned_traced host size alignment).2 =
      [Event.hostCall size alignment none] := by
  refine ⟨hfail, ?_⟩
  simp [sys_alloc_aligned_traced, hfail]

theorem c3_null_propagated_verbatim_witness :
    sys_alloc_aligned failHost 8 16 = none ∧
    (sys_alloc_aligned_traced failHost 8 16).2 = [Event.hostCall 8 16 none] :=
  c3_null_propagated_verbatim failHost 8 16 rfl

/-- C4: no validation of `alignment`: for every alignment value, including
ones that are not a power of two, the traced run shows the value forwarded
directly and unmodified to the host primitive, and the host's answer is
returned as is. -/
theorem c4_alignment_not_validated (host : HostPrim) (size alignment : Nat) :
    sys_alloc_aligned_traced host size alignment =
      (host size alignment, [Event.hostCall size alignment (host size alignment)]) :=
  rfl

/-- C5: a zero-size request takes no special-case branch: the host primitive
is called with size `0` unchanged and its answer is returned unchanged. -/
theorem c5_zero_size_passed_through (host : HostPrim) (alignment : Nat) :
    sys_alloc_aligned host 0 alignment = host 0 alignment ∧
    (sys_alloc_aligned_traced host 0 alignment).2 =
      [Event.hostCall 0 alignment (host 0 alignment)] :=
  ⟨rfl, rfl⟩

/-- C6: when the host primitive signals exhaustion by returning null for an
unsatisfiable size, `sys_alloc_aligned` returns the null failure indicator
(and in particular returns, rather than producing a non-null pointer). -/
theorem c6_exhaustion_returns_null (host : HostPrim) (size alignment : Nat)
    (hfail : host size alignment = none) :
    sys_alloc_aligned host size alignment = none ∧
    ∀ a, sys_alloc_aligned host size alignment ≠ some a := by
  refine ⟨hfail, fun a h => ?_⟩
  rw [sys_alloc_aligned, hfail] at h
  exact Option.noConfusion h

theorem c6_exhaustion_returns_null_witness :
    sys_alloc_aligned failHost 1000000 8 = none ∧
    ∀ a, sys_alloc_aligned failHost 1000000 8 ≠ some a :=
  c6_exhaustion_returns_null failHost 1000000 8 rfl

/-- C7: under the host allocator's contract, a non-null result of the shim is
a block of `size` bytes disjoint from every currently-live allocation, and two
successive successful calls with the same `(size, alignment)` yield blocks
disjoint from each other — distinct pointers when `size` is positive. -/
theorem c7_no_alias {τ : Type} (host : HostAllocator) (size alignment : Nat)
    (L L1 L2 : List Region) (t t1 t2 : τ) (a1 a2 : Nat)
    (hsound : HostSound host)
    (h1 : sys_alloc_aligned_st host size alignment (L, t) = (some a1, (L1, t1)))
    (h2 : sys_alloc_aligned_st host size alignment (L1, t1) = (some a2, (L2, t2))) :
    (∀ r ∈ L, (Region.mk a1 size).disjoint r) ∧
    (∀ r ∈ L1, (Region.mk a2 size).disjoint r) ∧
    (Region.mk a2 size).disjoint (Region.mk a1 size) ∧
    (0 < size → a1 ≠ a2) := by
  simp only [sys_alloc_aligned_st, Prod.mk.injEq] at h1 h2
  obtain ⟨hr1, hL1, _⟩ := h1
  obtain ⟨hr2, hL2, _⟩ := h2
  have hcall1 : host size alignment L = (some a1, L1) := by
    rw [← hr1, ← hL1]
  have hcall2 : host size alignment L1 = (some a2, L2) := by
    rw [← hr2, ← hL2]
  obtain ⟨hd1, hrec1⟩ := (hsound size alignment L).1 a1 L1 hcall1
  obtain ⟨hd2, _⟩ := (hsound size alignment L1).1 a2 L2 hcall2
  have hmem : Region.mk a1 size ∈ L1 := by
    rw [hrec1]; exact List.mem_cons_self _ _
  have hdisj : (Region.mk a2 size).disjoint (Region.mk a1 size) := hd2 _ hmem
  have hdisj2 : a2 + size ≤ a1 ∨ a1 + size ≤ a2 := hdisj
  refine ⟨hd1, hd2, hdisj, fun hpos heq => ?_⟩
  rcases hdisj2 with h | h <;> omega

theorem c7_no_alias_witness :
    (∀ r ∈ ([] : List Region), (Region.mk 0 4).disjoint r) ∧
    (∀ r ∈ [Region.mk 0 4], (Region.mk 4 4).disjoint r) ∧
    (Region.mk 4 4).disjoint (Region.mk 0 4) ∧
    (0 < 4 → (0 : Nat) ≠ 4) :=
  c7_no_alias (τ := Unit) bumpHost 4 8 [] [Region.mk 0 4] [Region.mk 4 4, Region.mk 0 4]
    () () () 0 4 bumpHost_sound rfl rfl

/-- C8: frame: beyond the single delegated host call, the shim changes no
process state — the non-heap component of the process state is returned
unchanged, and the heap component is exactly what the host call produced. -/
theorem c8_no_other_state_change {σ τ : Type} (host : Nat → Nat → σ → Option Nat × σ)
    (size alignment : Nat) (h : σ) (o : τ) :
    sys_alloc_aligned_st host size alignment (h, o) =
      ((host size alignment h).1, ((host size alignment h).2, o)) :=
  rfl

/-- C9: the shim's body is a single expression with no loop or recursion (the
embedding is a total function), and each invocation performs exactly one call
to the host primitive, returning the moment that call returns. -/
theorem c9_one_call_and_terminates (host : HostPrim) (size alignment : Nat) :
    (sys_alloc_aligned_traced host size alignment).2.length = 1 ∧
    (sys_alloc_aligned_traced host size alignment).2 =
      [Event.hostCall size alignment (host size alignment)] ∧
    (sys_alloc_aligned_traced host size alignment).1 = host size alignment :=
  ⟨rfl, rfl, rfl⟩

/-- C10: the result depends only on the arguments and the host primitive's
response to them: two invocations, possibly against different host behaviors,
in which the host returns the same value for the same `(size, alignment)`,
yield the same result — the shim reads no hidden input. -/
theorem c10_deterministic (host1 host2 : HostPrim) (size alignment : Nat)
    (r : Option Nat) (h1 : host1 size alignment = r) (h2 : host2 size alignment = r) :
    sys_alloc_aligned host1 size alignment = sys_alloc_aligned host2 size alignment := by
  rw [sys_alloc_aligned, sys_alloc_aligned, h1, h2]

theorem c10_deterministic_witness :
    sys_alloc_aligned sumHost 4 8 = sys_alloc_aligned pickyHost 4 8 :=
  c10_deterministic sumHost pickyHost 4 8 (some 12) rfl rfl

end SysAlloc
